import Mathlib

/-!
Verification of the FreeRTOS-tracing-over-RTT module
(`rtt_freertos_trace/include/rtt_freertos_trace/rtt_freertos_trace_hooks.h`)
against its natural-language specification.

The device-side recorder is embedded shallowly: the C translation unit's
static `trace_state` becomes an explicit `TraceState` record, every
`SEGGER_RTT_Write` call becomes an element appended to an `output` list,
and machine integers become `Nat` with explicit `% 2 ^ w` reductions where
the C types (`uint8_t`, `uint32_t`) force wraparound.  The host-side
analyzer scripts are not part of the source tree under verification, so
the pieces of them the claims need (the 13-byte record decoder and the
wraparound-extended timestamp reconstruction) are modelled from the spec,
and are marked as such in their doc comments.
-/

/-- Size in bytes of the packed C struct `TraceEvent`
(`uint8_t` + three `uint32_t`, `__attribute__((packed))`). -/
def TRACE_EVENT_SIZE : Nat := 13

/-- Compile-time constant `MAX_TASK_NAME_LEN` from the source. -/
def MAX_TASK_NAME_LEN : Nat := 16

/-- Compile-time constant `MAX_REGISTERED_TASKS` from the source. -/
def MAX_REGISTERED_TASKS : Nat := 32

/-- Compile-time constant `TRACE_BUFFER_SIZE` from the source (bytes). -/
def TRACE_BUFFER_SIZE : Nat := 512

/-- Enum value `TRACE_EVENT_TASK_SWITCHED_IN`. -/
def TRACE_EVENT_TASK_SWITCHED_IN : Nat := 0x01

/-- Enum value `TRACE_EVENT_TASK_SWITCHED_OUT`. -/
def TRACE_EVENT_TASK_SWITCHED_OUT : Nat := 0x02

/-- Enum value `TRACE_EVENT_ISR_ENTER`. -/
def TRACE_EVENT_ISR_ENTER : Nat := 0x10

/-- Enum value `TRACE_EVENT_ISR_EXIT`. -/
def TRACE_EVENT_ISR_EXIT : Nat := 0x11

/-- Enum value `TRACE_EVENT_QUEUE_SEND`. -/
def TRACE_EVENT_QUEUE_SEND : Nat := 0x21

/-- The packed C struct `TraceEvent`: event type tag (`uint8_t`) followed by
timestamp, handle and event-specific data (`uint32_t` each). -/
structure TraceEvent where
  event_type : Nat
  timestamp : Nat
  handle : Nat
  data : Nat
deriving DecidableEq

/-- Little-endian byte decomposition of a 32-bit value, as laid out in
memory for a `uint32_t` on the little-endian ARM Cortex-M target. -/
def le32 (x : Nat) : List Nat :=
  [x % 256, x / 256 % 256, x / 65536 % 256, x / 16777216 % 256]

/-- The 13 bytes that `memcpy`ing the packed `TraceEvent` struct into the
trace buffer produces: the tag byte at offset 0, then the three
little-endian 32-bit fields (timestamp, handle, data). -/
def encodeEvent (e : TraceEvent) : List Nat :=
  e.event_type % 256 :: (le32 e.timestamp ++ le32 e.handle ++ le32 e.data)

/-- Little-endian recomposition of four bytes into a 32-bit value. -/
def dec32 (b0 b1 b2 b3 : Nat) : Nat :=
  b0 + 256 * b1 + 65536 * b2 + 16777216 * b3

/-- Modelled from the spec: the host-side stream decoder's parsing of one
13-byte binary record (the analyzer script is not part of the source tree
under `src/`; the layout follows spec section 4.3 and the module README's
offset table: offset 0 is the `uint8` event type, then three little-endian
`uint32` fields: timestamp, handle, data). -/
def decodeEvent (bs : List Nat) : Option TraceEvent :=
  match bs with
  | [t, a0, a1, a2, a3, h0, h1, h2, h3, d0, d1, d2, d3] =>
      some { event_type := t
             timestamp := dec32 a0 a1 a2 a3
             handle := dec32 h0 h1 h2 h3
             data := dec32 d0 d1 d2 d3 }
  | _ => none

/-- Modelled from the spec: the host-side Timeline Reconstructor's
epoch-extended timestamp computation (the analyzer script is not part of
the source tree under `src/`).  Following spec section 4.4: walking the raw
32-bit samples in order, whenever a newly observed raw timestamp is
numerically smaller than the previous one, one full counter range (2^32)
is added to the epoch accumulator before adding the raw value.  `prev` is
the previously observed raw sample and `base` the accumulated epoch
offset. -/
def extendTsFrom (prev base : Nat) : List Nat → List Nat
  | [] => []
  | r :: rs =>
      let base' := if r < prev then base + 2 ^ 32 else base
      (base' + r) :: extendTsFrom r base' rs

/-- Modelled from the spec: extended-timestamp reconstruction of a whole
raw sample list, starting from raw predecessor 0 and epoch offset 0. -/
def extendTimestamps (l : List Nat) : List Nat := extendTsFrom 0 0 l

/-- C5: for every `TraceEvent` whose fields fit their C types (byte tag,
32-bit timestamp/handle/data), encoding it into the 13-byte binary record
layout and decoding those bytes recovers the identical event. -/
theorem C5_encode_decode_roundtrip (e : TraceEvent)
    (h1 : e.event_type < 256) (h2 : e.timestamp < 2 ^ 32)
    (h3 : e.handle < 2 ^ 32) (h4 : e.data < 2 ^ 32) :
    decodeEvent (encodeEvent e) = some e := by
  obtain ⟨t, ts, ha, d⟩ := e
  simp only [encodeEvent, le32, decodeEvent, dec32, List.cons_append, List.nil_append,
    Option.some.injEq, TraceEvent.mk.injEq] at *
  refine ⟨?_, ?_, ?_, ?_⟩ <;> omega

/-- Witness for C5 at a concrete event. -/
theorem C5_encode_decode_roundtrip_witness :
    decodeEvent (encodeEvent ⟨0x01, 0xDEADBEEF, 0xAAAA, 7⟩) = some ⟨0x01, 0xDEADBEEF, 0xAAAA, 7⟩ :=
  C5_encode_decode_roundtrip ⟨0x01, 0xDEADBEEF, 0xAAAA, 7⟩
    (by decide) (by decide) (by decide) (by decide)

/-- On 32-bit raw inputs, one reconstruction step strictly increases the
extended value whenever the new raw sample differs from the previous one:
this is the adjacent-pair relation proved below for whole lists. -/
lemma extendTsFrom_chain (l : List Nat) :
    ∀ prev base : Nat, (∀ r ∈ l, r < 2 ^ 32) → prev < 2 ^ 32 →
      List.Chain' (fun a b : Nat × Nat => a.1 ≠ b.1 → a.2 < b.2)
        ((prev, base + prev) :: l.zip (extendTsFrom prev base l)) := by
  induction l with
  | nil => intro prev base _ _; simp [extendTsFrom]
  | cons r rs ih =>
      intro prev base hr hprev
      have hr32 : r < 2 ^ 32 := hr r (List.mem_cons_self r rs)
      have hrs : ∀ x ∈ rs, x < 2 ^ 32 := fun x hx => hr x (List.mem_cons_of_mem r hx)
      have htail := ih r (if r < prev then base + 2 ^ 32 else base) hrs hr32
      simp only [extendTsFrom, List.zip_cons_cons]
      refine List.Chain'.cons ?_ htail
      intro hne
      by_cases hlt : r < prev
      · simp only [hlt, if_pos]
        omega
      · simp only [hlt, if_neg, not_false_iff]
        omega

/-- C6: the extended-timestamp reconstruction adds one full counter range
whenever the new raw sample is smaller than the previous one; the raw
sequence `[0xFFFFFFF0, 0xFFFFFFF8, 0x00000004]` reconstructs to a strictly
increasing sequence, and in general, for 32-bit raw samples, the
reconstructed sequence strictly increases at every adjacent pair whose raw
samples are unequal. -/
theorem C6_extended_timestamp_monotone :
    (extendTimestamps [0xFFFFFFF0, 0xFFFFFFF8, 0x00000004]
        = [0xFFFFFFF0, 0xFFFFFFF8, 0x100000004]
      ∧ List.Chain' (· < ·) (extendTimestamps [0xFFFFFFF0, 0xFFFFFFF8, 0x00000004]))
    ∧ ∀ l : List Nat, (∀ r ∈ l, r < 2 ^ 32) →
        List.Chain' (fun a b : Nat × Nat => a.1 ≠ b.1 → a.2 < b.2)
          (l.zip (extendTimestamps l)) := by
  constructor
  · refine ⟨by decide, ?_⟩
    rw [(by decide : extendTimestamps [0xFFFFFFF0, 0xFFFFFFF8, 0x00000004]
          = [0xFFFFFFF0, 0xFFFFFFF8, 0x100000004])]
    simp only [List.chain'_cons, List.chain'_singleton, and_true]
    omega
  · intro l hl
    have h := extendTsFrom_chain l 0 0 hl (by decide)
    exact h.tail

/-- Witness for C6 at a concrete wrapping sample list. -/
theorem C6_extended_timestamp_monotone_witness :
    List.Chain' (fun a b : Nat × Nat => a.1 ≠ b.1 → a.2 < b.2)
      ([0xFFFFFFFF, 0x00000002].zip (extendTimestamps [0xFFFFFFFF, 0x00000002])) :=
  C6_extended_timestamp_monotone.2 [0xFFFFFFFF, 0x00000002] (by decide)

/-- One call to `SEGGER_RTT_Write` on the trace channel: either an ASCII
marker/registry line or a binary flush of buffered event bytes. -/
inductive Write where
  | text (s : String)
  | binary (bs : List Nat)
deriving DecidableEq

/-- The C struct `TaskRegistryEntry`: handle plus the stored
(NUL-terminated, hence at most `MAX_TASK_NAME_LEN - 1` characters)
name. -/
structure TaskRegistryEntry where
  handle : Nat
  name : String
deriving DecidableEq

/-- The static `trace_state` of the translation unit, together with the
sequence of writes issued on the trace channel (`output`, in order).  The
byte buffer `trace_buffer` models the live region
`trace_state.trace_buffer[0 .. buffer_pos)`; its length is `buffer_pos`. -/
structure TraceState where
  initialized : Bool
  enabled : Bool
  channel : Nat
  task_registry : List TaskRegistryEntry
  trace_buffer : List Nat
  output : List Write
deriving DecidableEq

/-- The pristine value of the static `trace_state` initializer
`{0, 0, 0, {}, 0, {}, 0}`. -/
def initState : TraceState :=
  { initialized := false, enabled := false, channel := 0
    task_registry := [], trace_buffer := [], output := [] }

/-- Append one channel write to the output sequence. -/
def rttWrite (s : TraceState) (w : Write) : TraceState :=
  { s with output := s.output ++ [w] }

/-- `rtt_trace_is_enabled`: `trace_state.initialized && trace_state.enabled`. -/
def rtt_trace_is_enabled (s : TraceState) : Bool :=
  s.initialized && s.enabled

/-- `rtt_trace_init`: no-op if already initialized; otherwise stores the
channel (a `uint8_t` parameter), clears flags, registry count and buffer
position, marks the system initialized, and writes the stream version
marker `RTT_TRACE_V1\n`. -/
def rtt_trace_init (s : TraceState) (trace_channel : Nat) : TraceState :=
  if s.initialized = true then s
  else
    rttWrite
      { s with channel := trace_channel % 256, enabled := false
               task_registry := [], trace_buffer := [], initialized := true }
      (Write.text "RTT_TRACE_V1\n")

/-- The registry line the C code formats with
`snprintf(buffer, 64, "TASK:%lu:%s\n", handle, name)`. -/
def formatTaskLine (e : TaskRegistryEntry) : String :=
  "TASK:" ++ toString e.handle ++ ":" ++ e.name ++ "\n"

/-- The loop body of `rtt_trace_send_task_registry`: each registered entry
is formatted and written, guarded by the `snprintf` result check
`len > 0 && len < sizeof(buffer)` (buffer size 64). -/
def sendRegistryLines (s : TraceState) (entries : List TaskRegistryEntry) : TraceState :=
  entries.foldl
    (fun acc e =>
      let line := formatTaskLine e
      if 0 < line.length ∧ line.length < 64 then rttWrite acc (Write.text line) else acc)
    s

/-- `rtt_trace_send_task_registry`: no-op when uninitialized; otherwise
writes the `TASK_REGISTRY_START` marker, one line per registered entry, and
the `TASK_REGISTRY_END` marker. -/
def rtt_trace_send_task_registry (s : TraceState) : TraceState :=
  if s.initialized = true then
    rttWrite
      (sendRegistryLines (rttWrite s (Write.text "TASK_REGISTRY_START\n")) s.task_registry)
      (Write.text "TASK_REGISTRY_END\n")
  else s

/-- `rtt_trace_start`: when initialized, sets the enabled flag, writes the
`TRACE_START` marker, and sends the task registry. -/
def rtt_trace_start (s : TraceState) : TraceState :=
  if s.initialized = true then
    rtt_trace_send_task_registry
      (rttWrite { s with enabled := true } (Write.text "TRACE_START\n"))
  else s

/-- Writing the whole live buffer region to the channel and resetting
`buffer_pos` to zero, as done by the flush statements in
`rtt_trace_record_event` and `rtt_trace_stop`. -/
def flushBuffer (s : TraceState) : TraceState :=
  { s with output := s.output ++ [Write.binary s.trace_buffer], trace_buffer := [] }

/-- `rtt_trace_stop`: when initialized and enabled, flushes any buffered
events, writes the `TRACE_STOP` marker and clears the enabled flag;
otherwise does nothing. -/
def rtt_trace_stop (s : TraceState) : TraceState :=
  if (s.initialized && s.enabled) = true then
    { rttWrite (if 0 < s.trace_buffer.length then flushBuffer s else s)
        (Write.text "TRACE_STOP\n")
      with enabled := false }
  else s

/-- The `TraceEvent` value `rtt_trace_record_event` builds: the enum value
is cast to `uint8_t` and the three `uint32_t` fields stored as given
(reduced to their C types). -/
def mkTraceEvent (event_type ts handle data : Nat) : TraceEvent :=
  { event_type := event_type % 256, timestamp := ts % 2 ^ 32
    handle := handle % 2 ^ 32, data := data % 2 ^ 32 }

/-- The four event kinds the source flushes eagerly at half capacity
(task switched in/out, ISR enter/exit). -/
def isCriticalKind (event_type : Nat) : Bool :=
  event_type == TRACE_EVENT_TASK_SWITCHED_IN
    || event_type == TRACE_EVENT_TASK_SWITCHED_OUT
    || event_type == TRACE_EVENT_ISR_ENTER
    || event_type == TRACE_EVENT_ISR_EXIT

/-- `rtt_trace_record_event`: returns immediately when tracing is not
enabled; otherwise builds the event (sampling the timestamp `ts`), flushes
the buffer first if appending 13 more bytes would exceed
`TRACE_BUFFER_SIZE`, appends the 13 encoded bytes, and finally, for the
four critical event kinds, flushes again if the buffer has reached half
capacity. -/
def rtt_trace_record_event (s : TraceState) (event_type handle data ts : Nat) : TraceState :=
  if rtt_trace_is_enabled s = false then s
  else
    let event := mkTraceEvent event_type ts handle data
    let s1 := if TRACE_BUFFER_SIZE < s.trace_buffer.length + TRACE_EVENT_SIZE
              then flushBuffer s else s
    let s2 := { s1 with trace_buffer := s1.trace_buffer ++ encodeEvent event }
    if isCriticalKind event_type = true ∧ TRACE_BUFFER_SIZE / 2 ≤ s2.trace_buffer.length
    then flushBuffer s2 else s2

/-- `rtt_trace_register_task`: no-op when uninitialized or when the
fixed-capacity table is full; otherwise stores the handle (`uint32_t`) and
the name truncated to `MAX_TASK_NAME_LEN - 1` characters (one byte is
reserved for the NUL terminator). -/
def rtt_trace_register_task (s : TraceState) (handle : Nat) (name : String)
    (name_len : Nat) : TraceState :=
  if s.initialized = false ∨ MAX_REGISTERED_TASKS ≤ s.task_registry.length then s
  else
    let copy_len := if name_len < MAX_TASK_NAME_LEN - 1 then name_len else MAX_TASK_NAME_LEN - 1
    { s with task_registry :=
        s.task_registry ++ [{ handle := handle % 2 ^ 32, name := name.take copy_len }] }

/-- The C++ wrapper `FreeRtosTrace::registerTask` (the spec's
`registerObject`): skips empty names, otherwise forwards the name and its
length to `rtt_trace_register_task`. -/
def registerObject (s : TraceState) (handle : Nat) (name : String) : TraceState :=
  if name = "" then s else rtt_trace_register_task s handle name name.length

/-- One operation of the on-device API surface.  `record` carries the
timestamp the hardware counter returns at that call. -/
inductive TraceOp where
  | init (channel : Nat)
  | start
  | stop
  | record (event_type handle data ts : Nat)
  | registerTask (handle : Nat) (name : String)
deriving DecidableEq

/-- Interpret one API call on the trace state. -/
def step (s : TraceState) : TraceOp → TraceState
  | TraceOp.init c => rtt_trace_init s c
  | TraceOp.start => rtt_trace_start s
  | TraceOp.stop => rtt_trace_stop s
  | TraceOp.record k h d ts => rtt_trace_record_event s k h d ts
  | TraceOp.registerTask h n => registerObject s h n

/-- Interpret a sequence of API calls, left to right. -/
def run (s : TraceState) (ops : List TraceOp) : TraceState :=
  ops.foldl step s

/-- Encoded records are always exactly 13 bytes. -/
lemma encodeEvent_length (e : TraceEvent) : (encodeEvent e).length = 13 := rfl

/-- An enabled trace state holding 39 buffered records (507 bytes), used
as the concrete input of several witnesses. -/
def sampleFullState : TraceState :=
  { initialized := true, enabled := true, channel := 1
    task_registry := [], trace_buffer := List.replicate 507 0, output := [] }

/-- C2: when tracing is enabled and storing one more 13-byte record would
exceed `TRACE_BUFFER_SIZE`, `rtt_trace_record_event` first writes the
entire buffered region to the channel and resets the occupancy to zero,
and only then stores the new event: afterwards the buffer holds exactly
the new event's 13 bytes, the old contents having been drained, so the new
event is neither dropped nor overwrites a buffered one. -/
theorem C2_drain_before_store (s : TraceState) (k h d ts : Nat)
    (hen : rtt_trace_is_enabled s = true)
    (hfull : TRACE_BUFFER_SIZE < s.trace_buffer.length + TRACE_EVENT_SIZE) :
    rtt_trace_record_event s k h d ts =
      { s with output := s.output ++ [Write.binary s.trace_buffer]
               trace_buffer := encodeEvent (mkTraceEvent k ts h d) } := by
  unfold rtt_trace_record_event
  rw [hen]
  simp only [Bool.true_eq_false, if_false, if_pos hfull, flushBuffer]
  rw [if_neg]
  · simp
  · intro hcontra
    have hlen : (([] : List Nat) ++ encodeEvent (mkTraceEvent k ts h d)).length = 13 := by
      simp [encodeEvent_length]
    have hhalf := hcontra.2
    simp only [hlen] at hhalf
    exact absurd hhalf (by decide)

/-- Witness for C2 at a full enabled state. -/
theorem C2_drain_before_store_witness :
    rtt_trace_record_event sampleFullState 0x21 5 6 7 =
      { sampleFullState with
          output := sampleFullState.output ++ [Write.binary sampleFullState.trace_buffer]
          trace_buffer := encodeEvent (mkTraceEvent 0x21 7 5 6) } :=
  C2_drain_before_store sampleFullState 0x21 5 6 7 rfl
    (by rw [show sampleFullState.trace_buffer = List.replicate 507 0 from rfl,
          List.length_replicate]
        decide)

/-- C7: when tracing is active, `rtt_trace_stop` first writes every still
buffered event to the channel, then emits the `TRACE_STOP` marker, and
leaves tracing disabled with buffer occupancy zero; when tracing is not
active it writes nothing and changes no state. -/
theorem C7_stop_flushes_and_disables (s : TraceState) :
    (rtt_trace_is_enabled s = true →
      rtt_trace_stop s =
        { s with enabled := false, trace_buffer := [],
                 output := s.output
                   ++ (if 0 < s.trace_buffer.length then [Write.binary s.trace_buffer] else [])
                   ++ [Write.text "TRACE_STOP\n"] })
    ∧ (rtt_trace_is_enabled s = false → rtt_trace_stop s = s) := by
  constructor
  · intro hen
    unfold rtt_trace_stop
    rw [show (s.initialized && s.enabled) = true from hen]
    by_cases hb : 0 < s.trace_buffer.length
    · simp [hb, flushBuffer, rttWrite]
    · have hnil : s.trace_buffer = [] := by
        rw [← List.length_eq_zero]
        omega
      simp [hb, rttWrite, hnil]
  · intro hdis
    unfold rtt_trace_stop
    rw [show (s.initialized && s.enabled) = false from hdis]
    simp

/-- Witness for C7, covering both the active and the inactive branch. -/
theorem C7_stop_flushes_and_disables_witness :
    (rtt_trace_stop sampleFullState =
      { sampleFullState with
          enabled := false,
          trace_buffer := [],
          output := sampleFullState.output
            ++ (if 0 < sampleFullState.trace_buffer.length
                then [Write.binary sampleFullState.trace_buffer] else [])
            ++ [Write.text "TRACE_STOP\n"] })
    ∧ rtt_trace_stop initState = initState :=
  ⟨(C7_stop_flushes_and_disables sampleFullState).1 rfl,
   (C7_stop_flushes_and_disables initState).2 rfl⟩

/-- C8: whenever tracing is not active (uninitialized, never started or
stopped), `rtt_trace_record_event` returns right after the enabled check:
nothing is written and the whole state is unchanged. -/
theorem C8_record_noop_when_disabled (s : TraceState) (k h d ts : Nat)
    (hdis : rtt_trace_is_enabled s = false) :
    rtt_trace_record_event s k h d ts = s := by
  unfold rtt_trace_record_event
  rw [hdis]
  simp

/-- Witness for C8 at the pristine state. -/
theorem C8_record_noop_when_disabled_witness :
    rtt_trace_record_event initState 1 2 3 4 = initState :=
  C8_record_noop_when_disabled initState 1 2 3 4 rfl

/-- C9: `registerObject` is a silent no-op (state unchanged, nothing
written) when the system is uninitialized or the fixed-capacity table
already holds `MAX_REGISTERED_TASKS` entries; and an accepted entry whose
name is longer than the usable storage width (`MAX_TASK_NAME_LEN - 1`
characters, one byte being reserved for the NUL terminator) is stored with
the name truncated to exactly that width, i.e. the stored name is the
corresponding prefix of the given name. -/
theorem C9_register_capacity_and_truncation (s : TraceState) (handle : Nat) (name : String) :
    ((s.initialized = false ∨ MAX_REGISTERED_TASKS ≤ s.task_registry.length) →
      registerObject s handle name = s)
    ∧ (s.initialized = true → s.task_registry.length < MAX_REGISTERED_TASKS →
        MAX_TASK_NAME_LEN - 1 < name.length →
        registerObject s handle name =
          { s with task_registry := s.task_registry
              ++ [{ handle := handle % 2 ^ 32,
                    name := name.take (MAX_TASK_NAME_LEN - 1) }] }) := by
  constructor
  · intro hrej
    unfold registerObject rtt_trace_register_task
    by_cases hemp : name = ""
    · simp [hemp]
    · rw [if_neg hemp, if_pos]
      rcases hrej with hu | hf
      · exact Or.inl hu
      · exact Or.inr hf
  · intro hini hroom hlong
    have hemp : ¬ name = "" := by
      intro hcontra
      rw [hcontra] at hlong
      simp [MAX_TASK_NAME_LEN] at hlong
    unfold registerObject rtt_trace_register_task
    rw [if_neg hemp, if_neg]
    · have hcopy : (if name.length < MAX_TASK_NAME_LEN - 1
          then name.length else MAX_TASK_NAME_LEN - 1) = MAX_TASK_NAME_LEN - 1 := by
        rw [if_neg]
        omega
      rw [hcopy]
    · intro hcontra
      rcases hcontra with hu | hf
      · rw [hini] at hu
        exact absurd hu (by decide)
      · omega

/-- Witness for C9: rejection at the pristine (uninitialized) state, and
truncation of a 20-character name at an initialized empty-table state. -/
theorem C9_register_capacity_and_truncation_witness :
    registerObject initState 5 "abc" = initState
    ∧ registerObject { initState with initialized := true } 0xAAAA "WorkerWithLongName20" =
        { { initState with initialized := true } with
            task_registry := ({ initState with initialized := true }).task_registry
              ++ [{ handle := 0xAAAA % 2 ^ 32,
                    name := "WorkerWithLongName20".take (MAX_TASK_NAME_LEN - 1) }] } :=
  ⟨(C9_register_capacity_and_truncation initState 5 "abc").1 (Or.inl rfl),
   (C9_register_capacity_and_truncation { initState with initialized := true } 0xAAAA
      "WorkerWithLongName20").2 rfl (by decide) (by decide)⟩

/-- A channel text write is a registry `TASK:<handle>:<name>` line exactly
when it begins with the characters `TASK:`. -/
def isTaskLine (t : String) : Bool := "TASK:".data.isPrefixOf t.data

/-- Number of `TASK_REGISTRY_START` marker lines among the channel
writes: each registry snapshot contributes exactly one. -/
def countRegStartMarkers : List Write → Nat
  | [] => 0
  | Write.text t :: ws =>
      (if t = "TASK_REGISTRY_START\n" then 1 else 0) + countRegStartMarkers ws
  | Write.binary _ :: ws => countRegStartMarkers ws

/-- Marker counting distributes over concatenation of write sequences. -/
lemma countRegStartMarkers_append (a b : List Write) :
    countRegStartMarkers (a ++ b) = countRegStartMarkers a + countRegStartMarkers b := by
  induction a with
  | nil => simp [countRegStartMarkers]
  | cons w ws ih =>
      cases w with
      | text t => simp [countRegStartMarkers, ih]; omega
      | binary bs => simp [countRegStartMarkers, ih]

/-- Every formatted registry line begins with `TASK:`. -/
lemma isTaskLine_formatTaskLine (e : TaskRegistryEntry) :
    isTaskLine (formatTaskLine e) = true := by
  unfold isTaskLine formatTaskLine
  rw [List.isPrefixOf_iff_prefix]
  rw [show ("TASK:" ++ toString e.handle ++ ":" ++ e.name ++ "\n").data
        = "TASK:".data ++ (toString e.handle ++ ":" ++ e.name ++ "\n").data by
      simp [String.data_append]]
  exact List.prefix_append _ _

/-- A formatted registry line is never the `TASK_REGISTRY_START` marker. -/
lemma formatTaskLine_ne_marker (e : TaskRegistryEntry) :
    formatTaskLine e ≠ "TASK_REGISTRY_START\n" := by
  intro hcontra
  have h1 := isTaskLine_formatTaskLine e
  rw [hcontra] at h1
  exact absurd h1 (by decide)

/-- Every formatted registry line has at least the five `TASK:` characters. -/
lemma formatTaskLine_length_pos (e : TaskRegistryEntry) :
    0 < (formatTaskLine e).length := by
  unfold formatTaskLine
  simp only [String.length_append]
  have h5 : ("TASK:" : String).length = 5 := by decide
  omega

/-- The registry loop writes exactly one line per entry, in order, when
every line passes the `snprintf` length guard; nothing else changes. -/
lemma sendRegistryLines_eq (entries : List TaskRegistryEntry) :
    ∀ s : TraceState, (∀ e ∈ entries, (formatTaskLine e).length < 64) →
      sendRegistryLines s entries =
        { s with output := s.output
            ++ entries.map (fun e => Write.text (formatTaskLine e)) } := by
  induction entries with
  | nil => intro s _; simp [sendRegistryLines]
  | cons e es ih =>
      intro s hlen
      have hl := hlen e (List.mem_cons_self e es)
      have hp := formatTaskLine_length_pos e
      have hbody : sendRegistryLines s (e :: es)
          = sendRegistryLines (rttWrite s (Write.text (formatTaskLine e))) es := by
        unfold sendRegistryLines
        simp only [List.foldl_cons]
        rw [if_pos ⟨hp, hl⟩]
      rw [hbody, ih _ (fun x hx => hlen x (List.mem_cons_of_mem e hx))]
      simp [rttWrite]

/-- C4: starting on an initialized state emits the `TRACE_START` marker
followed by the registry snapshot: the `TASK_REGISTRY_START` marker, then
exactly one `TASK:<handle>:<name>` line per entry registered before the
start, in registration order, then the `TASK_REGISTRY_END` marker (under
the code's own `snprintf` guard that each formatted line fits its 64-byte
scratch buffer, which holds for every entry the registration path can
store); concretely, registering handle `0xAAAA` with name `Worker` before
starting yields a snapshot containing the line `TASK:43690:Worker`. -/
theorem C4_snapshot_lines (s : TraceState)
    (hini : s.initialized = true)
    (hlines : ∀ e ∈ s.task_registry, (formatTaskLine e).length < 64) :
    (run s [TraceOp.start]).output
        = s.output ++ [Write.text "TRACE_START\n", Write.text "TASK_REGISTRY_START\n"]
          ++ s.task_registry.map (fun e => Write.text (formatTaskLine e))
          ++ [Write.text "TASK_REGISTRY_END\n"]
    ∧ Write.text "TASK:43690:Worker\n" ∈
        (run initState [TraceOp.init 1, TraceOp.registerTask 0xAAAA "Worker",
          TraceOp.start]).output := by
  constructor
  · obtain ⟨ini, en, ch, reg, buf, out⟩ := s
    replace hini : ini = true := hini
    subst hini
    replace hlines : ∀ e ∈ reg, (formatTaskLine e).length < 64 := hlines
    have hsend := fun s => sendRegistryLines_eq reg s hlines
    simp only [run, List.foldl_cons, List.foldl_nil, step]
    unfold rtt_trace_start rtt_trace_send_task_registry
    simp [rttWrite, hsend]
  · decide

/-- An initialized state holding one registered entry, used as the
concrete input of the C4 witness. -/
def oneEntryState : TraceState :=
  { initialized := true, enabled := false, channel := 1,
    task_registry := [{ handle := 43690, name := "Worker" }],
    trace_buffer := [], output := [] }

/-- Witness for C4 at a one-entry registry. -/
theorem C4_snapshot_lines_witness :
    (run oneEntryState [TraceOp.start]).output
      = oneEntryState.output
        ++ [Write.text "TRACE_START\n", Write.text "TASK_REGISTRY_START\n"]
        ++ oneEntryState.task_registry.map (fun e => Write.text (formatTaskLine e))
        ++ [Write.text "TASK_REGISTRY_END\n"] :=
  (C4_snapshot_lines oneEntryState rfl (by decide)).1

/-- C3 counterexample: in the run `init; start; registerObject(0xBBBB,
"B"); start`, the entry registered after the first `start()` call appears
in a `TASK:` line (the second `start()` re-emits the registry snapshot),
so an entry added after a `start()` call can be transmitted, and the
snapshot is not emitted exactly once. -/
theorem C3_counterexample_register_after_start :
    Write.text "TASK:48059:B\n" ∈
      (run initState [TraceOp.init 1, TraceOp.start,
        TraceOp.registerTask 0xBBBB "B", TraceOp.start]).output := by
  decide

/-- Any text line written by an operation other than `start` is one of the
fixed non-registry markers: a `TASK:` line can only come from the registry
snapshot that `start` triggers. -/
lemma step_text_writes (s : TraceState) (op : TraceOp) (hop : op ≠ TraceOp.start)
    (t : String) (hmem : Write.text t ∈ (step s op).output) :
    Write.text t ∈ s.output ∨ isTaskLine t = false := by
  cases op with
  | start => exact absurd rfl hop
  | init c =>
      by_cases hini : s.initialized = true
      · left
        simpa [step, rtt_trace_init, hini] using hmem
      · simp only [step, rtt_trace_init, hini, if_false, rttWrite] at hmem
        rcases List.mem_append.mp hmem with h | h
        · exact Or.inl h
        · right
          simp only [List.mem_singleton, Write.text.injEq] at h
          rw [h]
          decide
  | registerTask h n =>
      simp only [step] at hmem
      unfold registerObject rtt_trace_register_task at hmem
      by_cases hemp : n = ""
      · left
        simpa [hemp] using hmem
      · rw [if_neg hemp] at hmem
        by_cases hrej : s.initialized = false ∨ MAX_REGISTERED_TASKS ≤ s.task_registry.length
        · left
          simpa [hrej] using hmem
        · left
          simp only [hrej, if_false] at hmem
          exact hmem
  | stop =>
      simp only [step] at hmem
      unfold rtt_trace_stop at hmem
      by_cases hen : (s.initialized && s.enabled) = true
      · rw [if_pos hen] at hmem
        by_cases hb : 0 < s.trace_buffer.length
        · simp only [hb, if_true, rttWrite, flushBuffer] at hmem
          rcases List.mem_append.mp hmem with h | h
          · rcases List.mem_append.mp h with h2 | h2
            · exact Or.inl h2
            · right
              simp at h2
          · right
            simp only [List.mem_singleton, Write.text.injEq] at h
            rw [h]
            decide
        · simp only [hb, if_false, rttWrite] at hmem
          rcases List.mem_append.mp hmem with h | h
          · exact Or.inl h
          · right
            simp only [List.mem_singleton, Write.text.injEq] at h
            rw [h]
            decide
      · rw [if_neg hen] at hmem
        exact Or.inl hmem
  | record k h d ts =>
      simp only [step] at hmem
      unfold rtt_trace_record_event at hmem
      by_cases hen : rtt_trace_is_enabled s = false
      · rw [if_pos hen] at hmem
        exact Or.inl hmem
      · rw [if_neg hen] at hmem
        left
        simp only [flushBuffer] at hmem
        split at hmem <;> split at hmem <;> simpa using hmem

/-- Running any sequence of operations that contains no `start` call never
writes a `TASK:` registry line. -/
lemma run_no_task_lines (post : List TraceOp) :
    ∀ s : TraceState, TraceOp.start ∉ post →
      ∀ t, Write.text t ∈ (run s post).output →
        Write.text t ∈ s.output ∨ isTaskLine t = false := by
  induction post with
  | nil => intro s _ t hmem; exact Or.inl hmem
  | cons op ops ih =>
      intro s hpost t hmem
      have hop : op ≠ TraceOp.start := by
        intro hcontra
        exact hpost (hcontra ▸ List.mem_cons_self op ops)
      have hops : TraceOp.start ∉ ops := fun hmem2 => hpost (List.mem_cons_of_mem op hmem2)
      rcases ih (step s op) hops t hmem with h | h
      · exact step_text_writes s op hop t h
      · exact Or.inr h

/-- The registry line loop never emits a `TASK_REGISTRY_START` marker. -/
lemma sendRegistryLines_markers (entries : List TaskRegistryEntry) :
    ∀ s : TraceState,
      countRegStartMarkers (sendRegistryLines s entries).output
        = countRegStartMarkers s.output := by
  induction entries with
  | nil => intro s; rfl
  | cons e es ih =>
      intro s
      have hbody : sendRegistryLines s (e :: es)
          = sendRegistryLines
              (if 0 < (formatTaskLine e).length ∧ (formatTaskLine e).length < 64
               then rttWrite s (Write.text (formatTaskLine e)) else s) es := by
        unfold sendRegistryLines
        simp only [List.foldl_cons]
      rw [hbody, ih]
      split
      · simp only [rttWrite, countRegStartMarkers_append]
        have hone : countRegStartMarkers [Write.text (formatTaskLine e)] = 0 := by
          simp [countRegStartMarkers, formatTaskLine_ne_marker e]
        omega
      · rfl

/-- Each `start` call on an initialized state emits exactly one
`TASK_REGISTRY_START` marker, that is, exactly one registry snapshot. -/
lemma start_emits_one_marker (s : TraceState) (hini : s.initialized = true) :
    countRegStartMarkers (run s [TraceOp.start]).output
      = countRegStartMarkers s.output + 1 := by
  obtain ⟨ini, en, ch, reg, buf, out⟩ := s
  replace hini : ini = true := hini
  subst hini
  simp only [run, List.foldl_cons, List.foldl_nil, step]
  unfold rtt_trace_start rtt_trace_send_task_registry
  simp only [if_pos, rttWrite, sendRegistryLines_markers, countRegStartMarkers_append]
  have h1 : countRegStartMarkers [Write.text "TRACE_START\n"] = 0 := by decide
  have h2 : countRegStartMarkers [Write.text "TASK_REGISTRY_START\n"] = 1 := by decide
  have h3 : countRegStartMarkers [Write.text "TASK_REGISTRY_END\n"] = 0 := by decide
  omega

/-- C3 amended: an entry registered after a `start()` call is never
transmitted as long as no further `start()` call occurs (a trace suffix
free of `start` writes no `TASK:` line at all beyond what was already on
the channel), and the registry snapshot is emitted exactly once per
`start()` call on an initialized system - not exactly once overall, since
every `start()` call re-emits it. -/
theorem C3_amended_registry_contract :
    (∀ (s : TraceState) (post : List TraceOp), TraceOp.start ∉ post →
      ∀ t, Write.text t ∈ (run s post).output →
        Write.text t ∈ s.output ∨ isTaskLine t = false)
    ∧ (∀ s : TraceState, s.initialized = true →
        countRegStartMarkers (run s [TraceOp.start]).output
          = countRegStartMarkers s.output + 1) :=
  ⟨fun s post hpost t hmem => run_no_task_lines post s hpost t hmem,
   fun s hini => start_emits_one_marker s hini⟩

/-- An initialized, enabled state with empty buffer and empty registry,
used as a concrete witness input. -/
def enabledState : TraceState :=
  { initialized := true, enabled := true, channel := 1,
    task_registry := [], trace_buffer := [], output := [] }

/-- Witness for the amended C3 at concrete states and operation lists. -/
theorem C3_amended_registry_contract_witness :
    (Write.text "TRACE_STOP\n" ∈ enabledState.output
      ∨ isTaskLine "TRACE_STOP\n" = false)
    ∧ countRegStartMarkers (run oneEntryState [TraceOp.start]).output
        = countRegStartMarkers oneEntryState.output + 1 :=
  ⟨C3_amended_registry_contract.1 enabledState [TraceOp.stop] (by decide)
      "TRACE_STOP\n" (by decide),
   C3_amended_registry_contract.2 oneEntryState rfl⟩

/-- Event bytes carried by one channel write: binary flushes carry their
payload, ASCII marker lines carry no event bytes. -/
def writeBytes : Write → List Nat
  | Write.text _ => []
  | Write.binary bs => bs

/-- Concatenation of all event bytes passed to channel writes, in order. -/
def binConcat : List Write → List Nat
  | [] => []
  | w :: ws => writeBytes w ++ binConcat ws

/-- Number of buffer drains (binary channel writes) in the output. -/
def drains : List Write → Nat
  | [] => 0
  | Write.text _ :: ws => drains ws
  | Write.binary _ :: ws => drains ws + 1

/-- Event-byte accounting distributes over output concatenation. -/
lemma binConcat_append (a b : List Write) :
    binConcat (a ++ b) = binConcat a ++ binConcat b := by
  induction a with
  | nil => rfl
  | cons w ws ih => simp [binConcat, ih]

/-- Drain counting distributes over output concatenation. -/
lemma drains_append (a b : List Write) :
    drains (a ++ b) = drains a + drains b := by
  induction a with
  | nil => simp [drains]
  | cons w ws ih =>
      cases w with
      | text t => simp [drains, ih]
      | binary bs => simp [drains, ih]; omega

/-- One `record(kind, handle, auxiliary)` call, together with the
timestamp the hardware counter delivers during it. -/
structure RecordCall where
  event_type : Nat
  handle : Nat
  data : Nat
  ts : Nat
deriving DecidableEq

/-- The operation list of a burst of `record` calls. -/
def toOps (l : List RecordCall) : List TraceOp :=
  l.map fun c => TraceOp.record c.event_type c.handle c.data c.ts

/-- The `TraceEvent` a given `record` call constructs. -/
def eventOf (c : RecordCall) : TraceEvent :=
  mkTraceEvent c.event_type c.ts c.handle c.data

/-- Concatenated encodings of the events of a burst of `record` calls. -/
def encodeAll : List RecordCall → List Nat
  | [] => []
  | c :: cs => encodeEvent (eventOf c) ++ encodeAll cs

/-- Encoded bursts occupy exactly 13 bytes per call. -/
lemma encodeAll_length (l : List RecordCall) :
    (encodeAll l).length = 13 * l.length := by
  induction l with
  | nil => rfl
  | cons c cs ih =>
      simp [encodeAll, List.length_append, encodeEvent_length, ih]
      omega

/-- Bookkeeping facts about a single enabled `record` call: the enabled
flag survives, occupancy stays a multiple of 13 and at most 507 bytes, the
bytes on the channel followed by the bytes in the buffer grow by exactly
the new event's encoding (nothing lost, order kept), drains never
decrease, and every drain writes at most 507 bytes. -/
lemma record_step_facts (s : TraceState) (k h d ts : Nat)
    (hen : rtt_trace_is_enabled s = true)
    (hdvd : 13 ∣ s.trace_buffer.length) (hle : s.trace_buffer.length ≤ 507) :
    rtt_trace_is_enabled (rtt_trace_record_event s k h d ts) = true
    ∧ 13 ∣ (rtt_trace_record_event s k h d ts).trace_buffer.length
    ∧ (rtt_trace_record_event s k h d ts).trace_buffer.length ≤ 507
    ∧ binConcat (rtt_trace_record_event s k h d ts).output
        ++ (rtt_trace_record_event s k h d ts).trace_buffer
      = (binConcat s.output ++ s.trace_buffer) ++ encodeEvent (mkTraceEvent k ts h d)
    ∧ drains s.output ≤ drains (rtt_trace_record_event s k h d ts).output
    ∧ ((binConcat s.output).length ≤ 507 * drains s.output →
        (binConcat (rtt_trace_record_event s k h d ts).output).length
          ≤ 507 * drains (rtt_trace_record_event s k h d ts).output) := by
  have hen' : ¬ rtt_trace_is_enabled s = false := by
    rw [hen]
    exact fun hc => absurd hc (by decide)
  unfold rtt_trace_record_event
  rw [if_neg hen']
  simp only [TRACE_BUFFER_SIZE, TRACE_EVENT_SIZE] at *
  split <;> split <;>
    refine ⟨hen, ?_, ?_, ?_, ?_, ?_⟩ <;>
    simp_all [flushBuffer, rtt_trace_is_enabled, binConcat_append, drains_append,
      binConcat, drains, writeBytes, encodeEvent_length, List.length_append,
      List.append_assoc] <;>
    omega

/-- Bookkeeping facts about a whole burst of enabled `record` calls,
obtained by chaining `record_step_facts`. -/
lemma run_records_facts (l : List RecordCall) :
    ∀ s : TraceState, rtt_trace_is_enabled s = true →
      13 ∣ s.trace_buffer.length → s.trace_buffer.length ≤ 507 →
      rtt_trace_is_enabled (run s (toOps l)) = true
      ∧ 13 ∣ (run s (toOps l)).trace_buffer.length
      ∧ (run s (toOps l)).trace_buffer.length ≤ 507
      ∧ binConcat (run s (toOps l)).output ++ (run s (toOps l)).trace_buffer
          = (binConcat s.output ++ s.trace_buffer) ++ encodeAll l
      ∧ drains s.output ≤ drains (run s (toOps l)).output
      ∧ ((binConcat s.output).length ≤ 507 * drains s.output →
          (binConcat (run s (toOps l)).output).length
            ≤ 507 * drains (run s (toOps l)).output) := by
  induction l with
  | nil =>
      intro s hen hdvd hle
      exact ⟨hen, hdvd, hle, by simp [toOps, run, encodeAll], Nat.le_refl _, id⟩
  | cons c cs ih =>
      intro s hen hdvd hle
      obtain ⟨e1, d1, l1, c1, m1, b1⟩ :=
        record_step_facts s c.event_type c.handle c.data c.ts hen hdvd hle
      obtain ⟨e2, d2, l2, c2, m2, b2⟩ :=
        ih (rtt_trace_record_event s c.event_type c.handle c.data c.ts) e1 d1 l1
      have hrun : run s (toOps (c :: cs))
          = run (rtt_trace_record_event s c.event_type c.handle c.data c.ts) (toOps cs) := rfl
      rw [hrun]
      refine ⟨e2, d2, l2, ?_, Nat.le_trans m1 m2, fun hb => b2 (b1 hb)⟩
      rw [c2, c1]
      simp [encodeAll, eventOf, List.append_assoc]

/-- The state right after `rtt_trace_init(1); rtt_trace_start()` on a
pristine system: tracing enabled, buffer empty, no binary writes yet. -/
def startedState : TraceState := run initState [TraceOp.init 1, TraceOp.start]

/-- C1: a burst of `record` calls on a freshly started tracer loses no
event without a drain: the bytes passed to channel writes followed by the
bytes still in the buffer are exactly the encodings of all recorded
events, in order; in records, drained-event count plus buffer occupancy
equals the number of calls; and once the burst exceeds twice the buffer's
record capacity (39 records of 13 bytes in the 512-byte buffer), at least
two internal drains have happened. -/
theorem C1_no_event_lost (l : List RecordCall) :
    binConcat (run startedState (toOps l)).output
        ++ (run startedState (toOps l)).trace_buffer = encodeAll l
    ∧ (binConcat (run startedState (toOps l)).output).length / 13
        + (run startedState (toOps l)).trace_buffer.length / 13 = l.length
    ∧ (2 * (TRACE_BUFFER_SIZE / TRACE_EVENT_SIZE) < l.length →
        2 ≤ drains (run startedState (toOps l)).output) := by
  obtain ⟨he, hdvd, hle, hcontent, hmono, hbound⟩ :=
    run_records_facts l startedState rfl (by decide) (by decide)
  have h0 : binConcat startedState.output = [] := by decide
  have hd0 : drains startedState.output = 0 := by decide
  have hb0 : startedState.trace_buffer = [] := by decide
  rw [h0, hb0] at hcontent
  simp only [List.nil_append, List.append_nil] at hcontent
  have hlens := congrArg List.length hcontent
  rw [List.length_append, encodeAll_length] at hlens
  refine ⟨hcontent, by omega, ?_⟩
  intro hlong
  have hcap : 2 * (TRACE_BUFFER_SIZE / TRACE_EVENT_SIZE) = 78 := by decide
  rw [hcap] at hlong
  have hb := hbound (by rw [h0, hd0]; simp)
  omega

/-- Witness for C1 at a burst of 79 queue-send records (capacity is 39
records, so two full-buffer drains must occur). -/
theorem C1_no_event_lost_witness :
    2 ≤ drains (run startedState (toOps (List.replicate 79 ⟨0x21, 0, 0, 0⟩))).output :=
  (C1_no_event_lost (List.replicate 79 ⟨0x21, 0, 0, 0⟩)).2.2
    (by rw [List.length_replicate]; decide)

/-- The registry line loop only appends channel writes; every other field
of the state is untouched. -/
lemma sendRegistryLines_shape (entries : List TaskRegistryEntry) :
    ∀ s : TraceState, ∃ ext, sendRegistryLines s entries = { s with output := s.output ++ ext } := by
  induction entries with
  | nil => intro s; exact ⟨[], by simp [sendRegistryLines]⟩
  | cons e es ih =>
      intro s
      have hbody : sendRegistryLines s (e :: es)
          = sendRegistryLines
              (if 0 < (formatTaskLine e).length ∧ (formatTaskLine e).length < 64
               then rttWrite s (Write.text (formatTaskLine e)) else s) es := by
        unfold sendRegistryLines
        simp only [List.foldl_cons]
      rw [hbody]
      split
      · obtain ⟨ext, hext⟩ := ih (rttWrite s (Write.text (formatTaskLine e)))
        refine ⟨Write.text (formatTaskLine e) :: ext, ?_⟩
        rw [hext]
        simp [rttWrite]
      · exact ih s

/-- The occupancy invariant maintained by every operation: the live buffer
region is a whole number of 13-byte records, holds at most 39 of them
(507 bytes), and is empty whenever tracing is not enabled. -/
def StateInv (s : TraceState) : Prop :=
  13 ∣ s.trace_buffer.length ∧ s.trace_buffer.length ≤ 507
    ∧ (rtt_trace_is_enabled s = false → s.trace_buffer.length = 0)

/-- Every single API call preserves the occupancy invariant. -/
lemma step_preserves_inv (s : TraceState) (op : TraceOp) (h : StateInv s) :
    StateInv (step s op) := by
  obtain ⟨hdvd, hle, hz⟩ := h
  cases op with
  | init c =>
      simp only [step]
      unfold rtt_trace_init
      split
      · exact ⟨hdvd, hle, hz⟩
      · refine ⟨?_, ?_, ?_⟩ <;> simp [rttWrite]
  | start =>
      simp only [step]
      unfold rtt_trace_start
      split
      · rename_i hini
        unfold rtt_trace_send_task_registry
        obtain ⟨ext, hext⟩ := sendRegistryLines_shape
          (rttWrite { s with enabled := true } (Write.text "TRACE_START\n")).task_registry
          (rttWrite (rttWrite { s with enabled := true } (Write.text "TRACE_START\n"))
            (Write.text "TASK_REGISTRY_START\n"))
        rw [if_pos (show (rttWrite { s with enabled := true }
              (Write.text "TRACE_START\n")).initialized = true from hini)]
        rw [hext]
        refine ⟨?_, ?_, ?_⟩
        · simpa [rttWrite] using hdvd
        · simpa [rttWrite] using hle
        · intro hfalse
          simp [rtt_trace_is_enabled, rttWrite, hini] at hfalse
      · exact ⟨hdvd, hle, hz⟩
  | stop =>
      simp only [step]
      unfold rtt_trace_stop
      split
      · rename_i hen
        split
        · refine ⟨?_, ?_, ?_⟩ <;> simp [rttWrite, flushBuffer]
        · rename_i hb
          have hb0 : s.trace_buffer.length = 0 := by omega
          refine ⟨?_, ?_, ?_⟩ <;> simp [rttWrite, hb0]
      · exact ⟨hdvd, hle, hz⟩
  | record k hh d ts =>
      simp only [step]
      by_cases hen : rtt_trace_is_enabled s = true
      · obtain ⟨e1, d1, l1, _, _, _⟩ := record_step_facts s k hh d ts hen hdvd hle
        refine ⟨d1, l1, ?_⟩
        intro hfalse
        rw [e1] at hfalse
        exact absurd hfalse (by decide)
      · have hen' : rtt_trace_is_enabled s = false := by
          cases hcase : rtt_trace_is_enabled s
          · rfl
          · exact absurd hcase hen
        rw [C8_record_noop_when_disabled s k hh d ts hen']
        exact ⟨hdvd, hle, hz⟩
  | registerTask hh n =>
      simp only [step]
      unfold registerObject rtt_trace_register_task
      split
      · exact ⟨hdvd, hle, hz⟩
      · split
        · exact ⟨hdvd, hle, hz⟩
        · refine ⟨by simpa using hdvd, by simpa using hle, ?_⟩
          intro hfalse
          simp only [rtt_trace_is_enabled] at hfalse hz
          simpa using hz hfalse

/-- Every run from a state satisfying the occupancy invariant satisfies
it afterwards. -/
lemma run_preserves_inv (ops : List TraceOp) :
    ∀ s : TraceState, StateInv s → StateInv (run s ops) := by
  induction ops with
  | nil => intro s h; exact h
  | cons op rest ih => intro s h; exact ih (step s op) (step_preserves_inv s op h)

/-- After a `record` call with a task-switch or ISR-boundary kind, the
buffer occupancy is strictly below half the buffer capacity (256 bytes):
the half-capacity flush triggers for exactly these kinds. -/
lemma record_critical_below_half (s : TraceState) (k h d ts : Nat)
    (hinv : StateInv s) (hcrit : isCriticalKind k = true) :
    (rtt_trace_record_event s k h d ts).trace_buffer.length < 256 := by
  obtain ⟨hdvd, hle, hz⟩ := hinv
  unfold rtt_trace_record_event
  by_cases hen : rtt_trace_is_enabled s = false
  · rw [if_pos hen]
    have h0 := hz hen
    omega
  · rw [if_neg hen]
    simp only [TRACE_BUFFER_SIZE, TRACE_EVENT_SIZE]
    split
    · rename_i hflush
      simp [flushBuffer, encodeEvent_length]
    · rename_i hnoflush
      split
      · simp [flushBuffer]
      · rename_i hcond
        rw [hcrit] at hcond
        simp only [eq_self_iff_true, true_and, not_le, List.length_append,
          encodeEvent_length] at hcond
        simp only [List.length_append, encodeEvent_length]
        omega

/-- C10: starting from the pristine state, across every sequence of API
calls the buffer occupancy is always a whole number of 13-byte records and
never exceeds the 512-byte capacity; after any `record` call with a
task-switched-in/out or ISR-enter/exit kind the occupancy is strictly
below half capacity; and the half-capacity flush indeed applies only to
those four kinds: a burst of queue-send records can leave the occupancy at
or above half capacity. -/
theorem C10_occupancy_invariant :
    (∀ ops : List TraceOp,
        TRACE_EVENT_SIZE ∣ (run initState ops).trace_buffer.length
        ∧ (run initState ops).trace_buffer.length ≤ TRACE_BUFFER_SIZE)
    ∧ (∀ (ops : List TraceOp) (k h d ts : Nat), isCriticalKind k = true →
        (run initState (ops ++ [TraceOp.record k h d ts])).trace_buffer.length
          < TRACE_BUFFER_SIZE / 2)
    ∧ (∃ (ops : List TraceOp) (k h d ts : Nat), isCriticalKind k = false ∧
        TRACE_BUFFER_SIZE / 2 ≤
          (run initState (ops ++ [TraceOp.record k h d ts])).trace_buffer.length) := by
  have hinv0 : StateInv initState := ⟨⟨0, rfl⟩, by decide, fun _ => rfl⟩
  refine ⟨?_, ?_, ?_⟩
  · intro ops
    obtain ⟨hdvd, hle, _⟩ := run_preserves_inv ops initState hinv0
    refine ⟨hdvd, ?_⟩
    show (run initState ops).trace_buffer.length ≤ 512
    omega
  · intro ops k h d ts hcrit
    have hinv := run_preserves_inv ops initState hinv0
    have hrun : run initState (ops ++ [TraceOp.record k h d ts])
        = rtt_trace_record_event (run initState ops) k h d ts := by
      unfold run
      rw [List.foldl_append]
      rfl
    rw [hrun]
    show (rtt_trace_record_event (run initState ops) k h d ts).trace_buffer.length < 256
    exact record_critical_below_half (run initState ops) k h d ts hinv hcrit
  · refine ⟨[TraceOp.init 1, TraceOp.start]
        ++ List.replicate 19 (TraceOp.record 0x21 0 0 0), 0x21, 0, 0, 0, by decide, ?_⟩
    decide

/-- Witness for C10 after one critical record on a started tracer. -/
theorem C10_occupancy_invariant_witness :
    (run initState ([TraceOp.init 1, TraceOp.start]
        ++ [TraceOp.record 0x01 0 0 0])).trace_buffer.length
      < TRACE_BUFFER_SIZE / 2 :=
  C10_occupancy_invariant.2.1 [TraceOp.init 1, TraceOp.start] 0x01 0 0 0 (by decide)
